import Mathlib

/-!
# Verification of the `myfs` in-memory filesystem modules

Shallow embedding of the two kernel modules of this repository:

* `src/myfs.c` — a ramfs-style filesystem using the `fs_context` mount API
  (namespace `Myfs`);
* `src/unnamed/part_000` — an older libfs-style module, also named `myfs`
  (namespace `Part0`).

Conventions of the embedding:

* Machine integers (`umode_t`, `u32`, inode numbers, time stamps) are `Nat`;
  where 32-bit overflow matters it is made explicit with a `< 2 ^ 32` bound.
* A kernel function returning `-ERRNO` is embedded as `Except Int _` paired
  with the post state; `.error e` models `return -e` (the sign is dropped,
  the errno constants below are the positive values from `errno.h`).
* `new_inode` can fail (return `NULL`) when memory is exhausted; the flag
  `can_alloc` of the state models whether allocation succeeds.  `new_inode`
  initializes `i_nlink` to 1 (`inode_init_always` in the kernel).
* The dentry cache is modelled as a list of `(parent, name, inode)` triples;
  `d_instantiate` on a dentry obtained from the VFS for `(dir, name)` is
  embedded as prepending such a triple.
* `current_time` is the `now` field of the state; a single call never
  advances the clock, matching the fact that both C functions read
  `current_time` during one VFS call.
-/

set_option maxHeartbeats 1000000
set_option linter.unusedVariables false

/-! ## Errno and mode-bit constants (from `errno.h`, `stat.h`, `fs_context.h`) -/

def EPERM : Int := 1
def ENOMEM : Int := 12
def EEXIST : Int := 17
def EINVAL : Int := 22
def ENOSPC : Int := 28
def ENOENT : Int := 2
def ENOPARAM : Int := 519

def S_IFMT : Nat := 0o170000
def S_IFREG : Nat := 0o100000
def S_IFDIR : Nat := 0o040000
def S_IFLNK : Nat := 0o120000
def S_IALLUGO : Nat := 0o7777
def S_IRWXUGO : Nat := 0o777

/-- `#define RAMFS_DEFAULT_MODE 0755` (src/myfs.c line 49). -/
def RAMFS_DEFAULT_MODE : Nat := 0o755

/-! ## Filesystem state -/

/-- The observable fields of `struct inode` used by the two modules. -/
structure Inode where
  i_ino : Nat
  i_mode : Nat
  i_nlink : Nat
  i_atime : Nat
  i_mtime : Nat
  i_ctime : Nat
deriving DecidableEq, Repr

/-- A positive dentry: directory `d_parent` maps name `d_name` to inode
`d_ino`. -/
structure DEntry where
  d_parent : Nat
  d_name : String
  d_ino : Nat
deriving DecidableEq, Repr

/-- The in-memory filesystem state shared by both embeddings: the inode
table, the dentry cache, the `get_next_ino` counter, the current time, and
the two environment conditions (whether `new_inode` succeeds and the result
`page_symlink` would produce, `none` standing for success). -/
structure FsState where
  inodes : List Inode
  dentries : List DEntry
  next_ino : Nat
  now : Nat
  can_alloc : Bool
  page_err : Option Int
deriving DecidableEq, Repr

/-- Look an inode up by inode number (first match in the table). -/
def findInode (st : FsState) (ino : Nat) : Option Inode :=
  st.inodes.find? (fun i => i.i_ino == ino)

/-- Apply `f` to the inode(s) numbered `ino`, leaving the rest unchanged. -/
def updInode (st : FsState) (ino : Nat) (f : Inode → Inode) : FsState :=
  { st with inodes := st.inodes.map (fun i => if i.i_ino == ino then f i else i) }

/-- `inc_nlink(inode)` for the inode numbered `ino`. -/
def inc_nlink (st : FsState) (ino : Nat) : FsState :=
  updInode st ino (fun i => { i with i_nlink := i.i_nlink + 1 })

/-- `inode_dec_link_count` / `drop_nlink` for the inode numbered `ino`. -/
def drop_nlink (st : FsState) (ino : Nat) : FsState :=
  updInode st ino (fun i => { i with i_nlink := i.i_nlink - 1 })

/-- `d_instantiate(dentry, inode)` where the (negative) dentry stands for
`name` under directory `dir`: the name becomes a positive entry for `ino`. -/
def d_instantiate (st : FsState) (dir : Nat) (name : String) (ino : Nat) : FsState :=
  { st with dentries := { d_parent := dir, d_name := name, d_ino := ino } :: st.dentries }

/-- `dir->i_mtime = dir->i_ctime = current_time(dir)` (src/myfs.c line 105,
line 143). -/
def touch_dir (st : FsState) (dir : Nat) : FsState :=
  updInode st dir (fun i => { i with i_mtime := st.now, i_ctime := st.now })

/-- Dentry-cache lookup of `name` in directory `dir` (`simple_lookup` /
`lookup_one_len`): the inode number of the matching positive dentry. -/
def simple_lookup (st : FsState) (dir : Nat) (name : String) : Option Nat :=
  (st.dentries.find? (fun e => e.d_parent == dir && e.d_name == name)).map
    (fun e => e.d_ino)

/-- Final `iput` on an inode that was never linked anywhere: the inode is
destroyed and leaves the table (src/myfs.c line 145). -/
def iput (st : FsState) (ino : Nat) : FsState :=
  { st with inodes := st.inodes.filter (fun i => !(i.i_ino == ino)) }

/-- Well-formed state: the `get_next_ino` counter is strictly above every
inode number in use, in the inode table as well as in the dentry cache. -/
def Fresh (st : FsState) : Prop :=
  (∀ i ∈ st.inodes, i.i_ino < st.next_ino) ∧ (∀ e ∈ st.dentries, e.d_ino < st.next_ino)

instance (st : FsState) : Decidable (Fresh st) := by
  unfold Fresh; infer_instance

/-- The inode built by both `myfs_get_inode` implementations when
`new_inode` succeeds: fresh number, the given mode, all timestamps at the
current instant, and `new_inode`'s link count 1 — incremented once in the
`S_IFDIR` branch of the type switch ("directory inodes start off with
i_nlink == 2"). -/
def allocI (st : FsState) (mode : Nat) : Inode :=
  { i_ino := st.next_ino, i_mode := mode,
    i_nlink := if mode &&& S_IFMT == S_IFDIR then 1 + 1 else 1,
    i_atime := st.now, i_mtime := st.now, i_ctime := st.now }

/-- The state after a successful `new_inode` + `get_next_ino`: the fresh
inode joins the table and the counter advances. -/
def allocState (st : FsState) (mode : Nat) : FsState :=
  { st with inodes := allocI st mode :: st.inodes, next_ino := st.next_ino + 1 }

namespace Myfs

/-! ## Embedding of src/myfs.c -/

/-- `myfs_get_inode` (src/myfs.c lines 54–88): `new_inode` (fails iff
`¬ st.can_alloc`), fresh inode number, times set to `current_time`, and the
type switch — a directory gets `inc_nlink` so that it "starts off with
i_nlink == 2", everything else keeps the link count 1 set by `new_inode`. -/
def myfs_get_inode (st : FsState) (mode : Nat) : Option (Inode × FsState) :=
  if st.can_alloc then some (allocI st mode, allocState st mode) else none

/-- `myfs_mknod` (src/myfs.c lines 94–108): allocate, `d_instantiate`,
update the parent's mtime/ctime; `-ENOSPC` when allocation fails. -/
def myfs_mknod (st : FsState) (dir : Nat) (name : String) (mode : Nat) :
    Except Int Nat × FsState :=
  match myfs_get_inode st mode with
  | none => (.error ENOSPC, st)
  | some (inode, st1) =>
      let st2 := d_instantiate st1 dir name inode.i_ino
      (.ok inode.i_ino, touch_dir st2 dir)

/-- `myfs_mkdir` (src/myfs.c lines 110–119): `myfs_mknod` with
`mode | S_IFDIR`, then `inc_nlink(dir)` on success. -/
def myfs_mkdir (st : FsState) (dir : Nat) (name : String) (mode : Nat) :
    Except Int Nat × FsState :=
  match myfs_mknod st dir name (mode ||| S_IFDIR) with
  | (.ok ino, st1) => (.ok ino, inc_nlink st1 dir)
  | (.error e, st1) => (.error e, st1)

/-- `myfs_create` (src/myfs.c lines 121–128): `myfs_mknod` with
`mode | S_IFREG`. -/
def myfs_create (st : FsState) (dir : Nat) (name : String) (mode : Nat) :
    Except Int Nat × FsState :=
  myfs_mknod st dir name (mode ||| S_IFREG)

/-- `myfs_symlink` (src/myfs.c lines 130–148): allocate a
`S_IFLNK|S_IRWXUGO` inode, run `page_symlink` (its result is the
environment condition `page_err`), then either instantiate and touch the
directory, or `iput` the fresh inode; `-ENOSPC` when allocation fails. -/
def myfs_symlink (st : FsState) (dir : Nat) (name : String) (symname : String) :
    Except Int Nat × FsState :=
  match myfs_get_inode st (S_IFLNK ||| S_IRWXUGO) with
  | none => (.error ENOSPC, st)
  | some (inode, st1) =>
      match st1.page_err with
      | none =>
          let st2 := d_instantiate st1 dir name inode.i_ino
          (.ok inode.i_ino, touch_dir st2 dir)
      | some e => (.error e, iput st1 inode.i_ino)

/-- `d_tmpfile(dentry, inode)`: the VFS helper decrements the fresh inode's
link count and instantiates it on an unhashed dentry, so no directory entry
is created and no directory is touched. -/
def d_tmpfile (st : FsState) (ino : Nat) : FsState :=
  drop_nlink st ino

/-- `myfs_tmpfile` (src/myfs.c lines 150–160): allocate, `d_tmpfile`;
`-ENOSPC` when allocation fails.  Note that `dir` is only used for the
superblock and owner: the function never mutates it. -/
def myfs_tmpfile (st : FsState) (dir : Nat) (mode : Nat) :
    Except Int Nat × FsState :=
  match myfs_get_inode st mode with
  | none => (.error ENOSPC, st)
  | some (inode, st1) => (.ok inode.i_ino, d_tmpfile st1 inode.i_ino)

/-! ## Embedding of the mount-option machinery of src/myfs.c -/

def isOctDigit (c : Char) : Bool := '0' ≤ c && c ≤ '7'

def octVal (l : List Char) : Nat :=
  l.foldl (fun acc c => acc * 8 + (c.toNat - '0'.toNat)) 0

/-- `kstrtouint(s, 8, &res)` as used by `fs_param_is_u32` for
`fsparam_u32oct`: succeeds exactly on a nonempty all-octal-digit string
whose value fits in a `u32`. -/
def parseOctal (s : String) : Option Nat :=
  if s.data ≠ [] ∧ s.data.all isOctDigit ∧ octVal s.data < 2 ^ 32 then
    some (octVal s.data)
  else
    none

/-- `fs_parse(fc, myfs_fs_parameters, param, &result)` for the table
`[fsparam_u32oct("mode", Opt_mode)]` (src/myfs.c lines 197–200): an
unrecognized key yields `-ENOPARAM`; the key `mode` yields the parsed
octal `u32` value, or `-EINVAL` when the value is malformed. -/
def fs_parse (key value : String) : Except Int Nat :=
  if key = "mode" then
    match parseOctal value with
    | some v => .ok v
    | none => .error EINVAL
  else
    .error ENOPARAM

/-- `myfs_parse_param` (src/myfs.c lines 202–228) acting on the stored
mount mode: `-ENOPARAM` from `fs_parse` is turned into success with the
option ignored; any other `fs_parse` failure is propagated; the `Opt_mode`
case stores `result.uint_32 & S_IALLUGO`. -/
def myfs_parse_param (mode : Nat) (key value : String) : Except Int Nat :=
  match fs_parse key value with
  | .error e => if e = ENOPARAM then .ok mode else .error e
  | .ok v => .ok (v &&& S_IALLUGO)

/-- Folding `myfs_parse_param` over the supplied option sequence, as the
`fs_context` machinery does for each mount option in order. -/
def parseParams (mode : Nat) : List (String × String) → Except Int Nat
  | [] => .ok mode
  | kv :: rest =>
      match myfs_parse_param mode kv.1 kv.2 with
      | .ok m => parseParams m rest
      | .error e => .error e

/-- `myfs_init_fs_context` (src/myfs.c lines 266–278) followed by option
parsing: the context starts at `RAMFS_DEFAULT_MODE` and each option is fed
to `myfs_parse_param`; the result is the mode stored in the mount context. -/
def myfs_mount (opts : List (String × String)) : Except Int Nat :=
  parseParams RAMFS_DEFAULT_MODE opts

/-- `myfs_fill_super` (src/myfs.c lines 230–248), root allocation only:
`myfs_get_inode(sb, NULL, S_IFDIR | fsi->mount_opts.mode, 0)`. -/
def myfs_fill_super (st : FsState) (mode : Nat) : Option (Inode × FsState) :=
  myfs_get_inode st (S_IFDIR ||| mode)

/-- `myfs_show_options` (src/myfs.c lines 178–185): echo `mode=%o` exactly
when the stored mode differs from `RAMFS_DEFAULT_MODE`. -/
def myfs_show_options (mode : Nat) : Option Nat :=
  if mode ≠ RAMFS_DEFAULT_MODE then some mode else none

end Myfs

namespace Part0

/-! ## Embedding of src/unnamed/part_000 -/

/-- `myfs_get_inode` (src/unnamed/part_000 lines 10–38): `new_inode`
(link count 1), times set to `CURRENT_TIME`, and `inode->i_nlink++` in the
`S_IFDIR` branch; the `S_IFREG` and default branches do not change the link
count. -/
def myfs_get_inode (st : FsState) (mode : Nat) : Option (Inode × FsState) :=
  if st.can_alloc then some (allocI st mode, allocState st mode) else none

/-- `myfs_mknod` (src/unnamed/part_000 lines 40–55): `-EEXIST` when the
dentry for `name` is already positive (the dentry is produced by
`lookup_one_len` in `myfs_create_by_name`), then allocation and
`d_instantiate`; the error when allocation fails is the initial value
`-EPERM`.  The parent's timestamps are never touched. -/
def myfs_mknod (st : FsState) (dir : Nat) (name : String) (mode : Nat) :
    Except Int Nat × FsState :=
  if (simple_lookup st dir name).isSome then
    (.error EEXIST, st)
  else
    match myfs_get_inode st mode with
    | none => (.error EPERM, st)
    | some (inode, st1) => (.ok inode.i_ino, d_instantiate st1 dir name inode.i_ino)

/-- `myfs_mkdir` (src/unnamed/part_000 lines 56–63): `myfs_mknod` with
`mode | S_IFDIR`, then `dir->i_nlink++` on success. -/
def myfs_mkdir (st : FsState) (dir : Nat) (name : String) (mode : Nat) :
    Except Int Nat × FsState :=
  match myfs_mknod st dir name (mode ||| S_IFDIR) with
  | (.ok ino, st1) => (.ok ino, inc_nlink st1 dir)
  | (.error e, st1) => (.error e, st1)

/-- `myfs_create` (src/unnamed/part_000 lines 64–67): `myfs_mknod` with
`mode | S_IFREG`. -/
def myfs_create (st : FsState) (dir : Nat) (name : String) (mode : Nat) :
    Except Int Nat × FsState :=
  myfs_mknod st dir name (mode ||| S_IFREG)

/-- Modelled from the spec: `DirectoryTree.remove(dir, name)` — removal of a
name is wired to the VFS libfs helper (`simple_unlink`), which is not part
of the sources under src/.  Per the spec it "fails with `NotFound` if
absent; otherwise removes the entry, calls `InodeStore.unlink` on the
referenced inode, updates `dir` timestamps, returns the inode". -/
def remove (st : FsState) (dir : Nat) (name : String) : Except Int Nat × FsState :=
  match simple_lookup st dir name with
  | none => (.error ENOENT, st)
  | some ino =>
      let st1 :=
        { st with dentries :=
            st.dentries.filter (fun e => !(e.d_parent == dir && e.d_name == name)) }
      (.ok ino, touch_dir (drop_nlink st1 ino) dir)

end Part0

/-! ## Concrete states for witnesses and counterexamples -/

/-- The empty post-mount state: clock at 0, allocation succeeding. -/
def st_empty : FsState :=
  { inodes := [], dentries := [], next_ino := 1, now := 0,
    can_alloc := true, page_err := none }

/-- A root directory inode, number 1, mode `040755`, link count 2. -/
def rootInode : Inode :=
  { i_ino := 1, i_mode := S_IFDIR ||| 0o755, i_nlink := 2,
    i_atime := 0, i_mtime := 0, i_ctime := 0 }

/-- A state holding just the root directory. -/
def st0 : FsState :=
  { inodes := [rootInode], dentries := [], next_ino := 2, now := 0,
    can_alloc := true, page_err := none }

/-- `st0` with inode allocation failing (`new_inode` returns `NULL`). -/
def st_noalloc : FsState :=
  { st0 with can_alloc := false }

/-- `st0` with the clock advanced to 5 while the root's timestamps are
still 0. -/
def st5 : FsState :=
  { st0 with now := 5 }

/-! ## General lemmas about the state operations -/

lemma find?_map_pred {α : Type} (g : α → α) (p : α → Bool)
    (h : ∀ a, p (g a) = p a) :
    ∀ (l : List α), (l.map g).find? p = (l.find? p).map g := by
  intro l
  induction l with
  | nil => rfl
  | cons a t ih =>
    simp only [List.map_cons, List.find?]
    rw [h a]
    cases hp : p a <;> simp [ih]

/-- A bit-mask fact used for `mode | S_IFDIR` and `mode | S_IFREG`: or-ing a
type constant into a mode with no type bits leaves exactly that type. -/
lemma lor_land_of_land_eq_zero (a t m : Nat) (ha : a &&& m = 0) (ht : t &&& m = t) :
    (a ||| t) &&& m = t := by
  apply Nat.eq_of_testBit_eq
  intro k
  have h1 : (a &&& m).testBit k = false := by rw [ha]; exact Nat.zero_testBit k
  have h3 : (t &&& m).testBit k = t.testBit k := by rw [ht]
  simp only [Nat.testBit_land, Nat.testBit_lor] at h1 h3 ⊢
  cases hb : t.testBit k <;> cases hm : m.testBit k <;> cases hx : a.testBit k <;>
    simp_all

/-- `updInode` commutes with `findInode` when the update keeps the inode
number. -/
lemma findInode_updInode (st : FsState) (k j : Nat) (f : Inode → Inode)
    (hf : ∀ i, (f i).i_ino = i.i_ino) :
    findInode (updInode st k f) j =
      (findInode st j).map (fun i => if i.i_ino == k then f i else i) := by
  unfold findInode updInode
  apply find?_map_pred
  intro a
  by_cases h : a.i_ino == k <;> simp [h, hf a]

/-- `updInode` does not change the dentry cache. -/
lemma dentries_updInode (st : FsState) (k : Nat) (f : Inode → Inode) :
    (updInode st k f).dentries = st.dentries := rfl

lemma findInode_some_mem (st : FsState) (ino : Nat) (i : Inode)
    (h : findInode st ino = some i) : i ∈ st.inodes ∧ i.i_ino = ino := by
  refine ⟨List.mem_of_find?_eq_some h, ?_⟩
  have := List.find?_some h
  simpa using this


/-- Shape of a successful `Part0.myfs_mknod`: the returned inode number is
the fresh one and the only change to the dentry cache is the new entry. -/
lemma part0_mknod_ok (st : FsState) (dir : Nat) (name : String) (mode x : Nat)
    (st' : FsState) (h : Part0.myfs_mknod st dir name mode = (.ok x, st')) :
    x = st.next_ino
    ∧ st'.dentries = { d_parent := dir, d_name := name, d_ino := x } :: st.dentries := by
  unfold Part0.myfs_mknod Part0.myfs_get_inode at h
  cases hs : (simple_lookup st dir name).isSome with
  | true => simp [hs] at h
  | false =>
    cases hc : st.can_alloc with
    | false => simp [hs, hc] at h
    | true =>
      simp only [hs, hc, Bool.false_eq_true, if_false, if_true] at h
      rw [Prod.mk.injEq] at h
      obtain ⟨h1, h2⟩ := h
      injection h1 with h1
      subst h1
      subst h2
      exact ⟨rfl, rfl⟩

/-! ## Claim C1 -/

/-- **C1.** For every directory `d` and name `n`, after an insert of
`(n, x)` into `d` succeeds (`myfs_mknod` of src/unnamed/part_000, which is
how `myfs_create_by_name` inserts), `lookup(d, n)` returns `x`; a second
insert of `n` into `d` fails with `-EEXIST` (AlreadyExists); and once `n`
is removed from `d`, an insert no longer fails with `-EEXIST`. -/
theorem insert_then_lookup_and_exclusive (st : FsState) (dir : Nat) (name : String)
    (mode : Nat) (x : Nat) (st' : FsState)
    (h : Part0.myfs_mknod st dir name mode = (.ok x, st')) :
    simple_lookup st' dir name = some x
    ∧ (∀ mode2, (Part0.myfs_mknod st' dir name mode2).1 = .error EEXIST)
    ∧ (∀ mode2,
        (Part0.myfs_mknod (Part0.remove st' dir name).2 dir name mode2).1 ≠
          .error EEXIST) := by
  obtain ⟨hx, hd⟩ := part0_mknod_ok st dir name mode x st' h
  have hl1 : simple_lookup st' dir name = some x := by
    simp [simple_lookup, hd, List.find?]
  refine ⟨hl1, ?_, ?_⟩
  · intro mode2
    unfold Part0.myfs_mknod
    simp [hl1]
  · intro mode2
    have hrm : simple_lookup (Part0.remove st' dir name).2 dir name = none := by
      unfold Part0.remove
      rw [hl1]
      simp only [simple_lookup, touch_dir, drop_nlink, updInode]
      rw [Option.map_eq_none', List.find?_eq_none]
      intro e he
      have hq := (List.mem_filter.mp he).2
      simp only [Bool.not_eq_true'] at hq
      simp [hq]
    unfold Part0.myfs_mknod
    rw [hrm]
    cases hg : Part0.myfs_get_inode (Part0.remove st' dir name).2 mode2 with
    | none => simp [EPERM, EEXIST]
    | some p => simp [hg]

/-- The state after inserting name `"a"` (a regular file, mode `0100644`)
into the root directory of `st0`. -/
def stA : FsState := (Part0.myfs_mknod st0 1 "a" 0o100644).2

/-- Witness for C1 at a concrete input: inserting `"a"` into the root of
`st0` succeeds with inode 2; afterwards lookup returns 2 and a second
insert fails with `-EEXIST`. -/
theorem insert_then_lookup_and_exclusive_witness :
    simple_lookup stA 1 "a" = some 2
    ∧ (Part0.myfs_mknod stA 1 "a" 0o100644).1 = .error EEXIST := by
  have h := insert_then_lookup_and_exclusive st0 1 "a" 0o100644 2 stA (by rfl)
  exact ⟨h.1, h.2.1 0o100644⟩

/-! ## Claim C2 -/

/-- **C2, counterexample.** The claim says non-directory inodes start with
the link count the caller supplies ("typically 0 until linked").
`myfs_get_inode` takes no link-count argument at all: a freshly allocated
regular-file inode has link count 1 (set by `new_inode`), never 0. -/
theorem nondir_nlink_one_not_zero :
    (Myfs.myfs_get_inode st_empty (S_IFREG ||| 0o644)).map (fun p => p.1.i_nlink) = some 1
    ∧ (Myfs.myfs_get_inode st_empty (S_IFREG ||| 0o644)).map (fun p => p.1.i_nlink) ≠ some 0 := by
  constructor <;> decide

/-- **C2, amended.** Every directory inode, at the moment allocation
returns it, has link count exactly 2; inodes of every other kind start with
link count exactly 1 (the value `new_inode` installs) — in both
`myfs_get_inode` implementations (src/myfs.c and src/unnamed/part_000). -/
theorem dir_nlink_two_else_one (st : FsState) (mode : Nat) (i : Inode) (st' : FsState) :
    (Myfs.myfs_get_inode st mode = some (i, st') →
      (mode &&& S_IFMT = S_IFDIR → i.i_nlink = 2)
      ∧ (mode &&& S_IFMT ≠ S_IFDIR → i.i_nlink = 1))
    ∧ (Part0.myfs_get_inode st mode = some (i, st') →
      (mode &&& S_IFMT = S_IFDIR → i.i_nlink = 2)
      ∧ (mode &&& S_IFMT ≠ S_IFDIR → i.i_nlink = 1)) := by
  constructor <;>
  · intro h
    simp only [Myfs.myfs_get_inode, Part0.myfs_get_inode] at h
    cases hc : st.can_alloc with
    | false => simp [hc] at h
    | true =>
      simp only [hc, if_true] at h
      injection h with h
      rw [Prod.mk.injEq] at h
      obtain ⟨h1, h2⟩ := h
      subst h1
      by_cases hm : mode &&& S_IFMT = S_IFDIR <;> simp [allocI, hm]

/-- The root directory inode produced by `Myfs.myfs_get_inode` on
`st_empty`. -/
def iD : Inode :=
  { i_ino := 1, i_mode := S_IFDIR ||| 0o755, i_nlink := 2,
    i_atime := 0, i_mtime := 0, i_ctime := 0 }

def stD : FsState := { st_empty with inodes := [iD], next_ino := 2 }

/-- A regular-file inode produced by `Myfs.myfs_get_inode` on `st_empty`. -/
def iR : Inode :=
  { i_ino := 1, i_mode := S_IFREG ||| 0o644, i_nlink := 1,
    i_atime := 0, i_mtime := 0, i_ctime := 0 }

def stR : FsState := { st_empty with inodes := [iR], next_ino := 2 }

/-- Witness for the amended C2 at concrete inputs: a directory allocation
returns link count 2, a regular-file allocation returns link count 1. -/
theorem dir_nlink_two_else_one_witness : iD.i_nlink = 2 ∧ iR.i_nlink = 1 := by
  have h1 := (dir_nlink_two_else_one st_empty (S_IFDIR ||| 0o755) iD stD).1 (by rfl)
  have h2 := (dir_nlink_two_else_one st_empty (S_IFREG ||| 0o644) iR stR).1 (by rfl)
  exact ⟨h1.1 (by decide), h2.2 (by decide)⟩

/-! ## Claim C10 -/

/-- **C10.** For every value `v` supplied for the `mode` mount option, the
mode stored by `myfs_parse_param` is `v &&& 07777` (`S_IALLUGO`), and every
stored mode is at most `07777`, even when the supplied octal value has
file-type bits set. -/
theorem mode_option_masked (m : Nat) (s : String) (v : Nat)
    (h : Myfs.parseOctal s = some v) :
    Myfs.myfs_parse_param m "mode" s = .ok (v &&& 0o7777)
    ∧ ∀ r, Myfs.myfs_parse_param m "mode" s = .ok r → r ≤ 0o7777 := by
  have hp : Myfs.myfs_parse_param m "mode" s = .ok (v &&& S_IALLUGO) := by
    unfold Myfs.myfs_parse_param Myfs.fs_parse
    simp [h]
  refine ⟨hp, ?_⟩
  intro r hr
  rw [hp] at hr
  injection hr with hr
  rw [← hr]
  exact Nat.and_le_right

/-- Witness for C10: supplying `mode=100644` (an octal value with the
`S_IFREG` type bit set) stores `0644`, which is at most `07777`. -/
theorem mode_option_masked_witness :
    Myfs.myfs_parse_param 0o755 "mode" "100644" = .ok 0o644 ∧ (0o644 : Nat) ≤ 0o7777 := by
  have h := mode_option_masked 0o755 "100644" 0o100644 (by decide)
  exact ⟨h.1, h.2 0o644 h.1⟩

/-! ## Claim C7 -/

/-- **C7.** Mounting with no options stores the built-in default mode
`0755` and `myfs_show_options` echoes nothing; mounting with `mode=700`
stores `0700`, the root inode allocated by `myfs_fill_super` is a directory
whose permission bits are `0700`, and `myfs_show_options` echoes the mode
back. -/
theorem mount_mode_default_and_override :
    Myfs.myfs_mount [] = .ok RAMFS_DEFAULT_MODE
    ∧ RAMFS_DEFAULT_MODE = 0o755
    ∧ Myfs.myfs_show_options RAMFS_DEFAULT_MODE = none
    ∧ Myfs.myfs_mount [("mode", "700")] = .ok 0o700
    ∧ (Myfs.myfs_fill_super st_empty 0o700).map
        (fun p => (p.1.i_mode &&& S_IFMT, p.1.i_mode &&& 0o7777)) =
        some (S_IFDIR, 0o700)
    ∧ Myfs.myfs_show_options 0o700 = some 0o700 := by
  refine ⟨by rfl, by rfl, by decide, by rfl, by decide, by decide⟩

/-! ## Claim C6 -/

/-- **C6.** Option-sequence parsing: every unrecognized key is accepted and
ignored without error (and leaves the stored mode unchanged), and parsing
fails exactly when some occurrence of the recognized key `mode` carries a
value that is not parseable as an octal number. -/
theorem unknown_keys_ignored_mode_value_strict :
    (∀ (m : Nat) (opts : List (String × String)),
      (∃ r, Myfs.parseParams m opts = .ok r) ↔
        ∀ kv ∈ opts, kv.1 = "mode" → (Myfs.parseOctal kv.2).isSome)
    ∧ (∀ (m : Nat) (k v : String), k ≠ "mode" → Myfs.myfs_parse_param m k v = .ok m) := by
  have hignore : ∀ (m : Nat) (k v : String), k ≠ "mode" →
      Myfs.myfs_parse_param m k v = .ok m := by
    intro m k v hk
    unfold Myfs.myfs_parse_param Myfs.fs_parse
    simp [hk]
  refine ⟨?_, hignore⟩
  intro m opts
  induction opts generalizing m with
  | nil => simp [Myfs.parseParams]
  | cons kv rest ih =>
    obtain ⟨k, v⟩ := kv
    by_cases hk : k = "mode"
    · subst hk
      cases hv : Myfs.parseOctal v with
      | none =>
        have hp : Myfs.myfs_parse_param m "mode" v = .error EINVAL := by
          unfold Myfs.myfs_parse_param Myfs.fs_parse
          simp [hv, EINVAL, ENOPARAM]
        simp only [Myfs.parseParams, hp]
        constructor
        · rintro ⟨r, hr⟩
          simp at hr
        · intro hall
          have hhead := hall ("mode", v) (List.mem_cons_self _ _) rfl
          rw [hv] at hhead
          simp at hhead
      | some w =>
        have hp : Myfs.myfs_parse_param m "mode" v = .ok (w &&& S_IALLUGO) := by
          unfold Myfs.myfs_parse_param Myfs.fs_parse
          simp [hv]
        simp only [Myfs.parseParams, hp]
        rw [ih]
        simp [List.forall_mem_cons, hv]
    · have hp := hignore m k v hk
      simp only [Myfs.parseParams, hp]
      rw [ih]
      simp [List.forall_mem_cons, hk]

/-- Witness for C6: an unrecognized key (`size=10m`) parses fine and leaves
the mode unchanged; a malformed value for the recognized key (`mode=8`)
makes parsing fail. -/
theorem unknown_keys_ignored_mode_value_strict_witness :
    (∃ r, Myfs.parseParams 0o755 [("size", "10m")] = .ok r)
    ∧ ¬(∃ r, Myfs.parseParams 0o755 [("mode", "8")] = .ok r)
    ∧ Myfs.myfs_parse_param 0o755 "size" "10m" = .ok 0o755 := by
  have h := unknown_keys_ignored_mode_value_strict
  refine ⟨(h.1 0o755 [("size", "10m")]).mpr (by decide), ?_,
    h.2 0o755 "size" "10m" (by decide)⟩
  intro hok
  have hbad := (h.1 0o755 [("mode", "8")]).mp hok ("mode", "8")
    (List.mem_cons_self _ _) rfl
  exact absurd hbad (by decide)

/-! ## State-shape lemmas for the mutating operations -/

lemma findInode_inc_nlink (st : FsState) (k j : Nat) :
    findInode (inc_nlink st k) j =
      (findInode st j).map
        (fun i => if i.i_ino == k then { i with i_nlink := i.i_nlink + 1 } else i) :=
  findInode_updInode st k j _ (fun i => by by_cases h : i.i_ino == k <;> simp [h])

lemma findInode_touch_dir (st : FsState) (k j : Nat) :
    findInode (touch_dir st k) j =
      (findInode st j).map
        (fun i => if i.i_ino == k then { i with i_mtime := st.now, i_ctime := st.now } else i) :=
  findInode_updInode st k j _ (fun i => by by_cases h : i.i_ino == k <;> simp [h])

lemma findInode_drop_nlink (st : FsState) (k j : Nat) :
    findInode (drop_nlink st k) j =
      (findInode st j).map
        (fun i => if i.i_ino == k then { i with i_nlink := i.i_nlink - 1 } else i) :=
  findInode_updInode st k j _ (fun i => by by_cases h : i.i_ino == k <;> simp [h])

lemma findInode_d_instantiate (st : FsState) (dir : Nat) (name : String) (ino j : Nat) :
    findInode (d_instantiate st dir name ino) j = findInode st j := rfl

lemma findInode_allocState (st : FsState) (m j : Nat) :
    findInode (allocState st m) j =
      if st.next_ino == j then some (allocI st m) else findInode st j := by
  unfold findInode allocState
  cases hp : (st.next_ino == j) <;> simp [List.find?, allocI, hp]

lemma simple_lookup_updInode (st : FsState) (k : Nat) (f : Inode → Inode)
    (dir : Nat) (name : String) :
    simple_lookup (updInode st k f) dir name = simple_lookup st dir name := rfl

lemma simple_lookup_allocState (st : FsState) (m dir : Nat) (name : String) :
    simple_lookup (allocState st m) dir name = simple_lookup st dir name := rfl

lemma simple_lookup_d_instantiate_self (st : FsState) (dir : Nat) (name : String)
    (ino : Nat) :
    simple_lookup (d_instantiate st dir name ino) dir name = some ino := by
  simp [simple_lookup, d_instantiate, List.find?]

/-! ## Claim C3 -/

/-- Full state shape of a successful `Part0.myfs_mknod`: the fresh inode
number is returned and the post state is the allocation followed by
`d_instantiate`. -/
lemma part0_mknod_ok_state (st : FsState) (dir : Nat) (name : String) (mode x : Nat)
    (st' : FsState) (h : Part0.myfs_mknod st dir name mode = (.ok x, st')) :
    x = st.next_ino ∧ st' = d_instantiate (allocState st mode) dir name st.next_ino := by
  unfold Part0.myfs_mknod Part0.myfs_get_inode at h
  cases hs : (simple_lookup st dir name).isSome with
  | true => simp [hs] at h
  | false =>
    cases hc : st.can_alloc with
    | false => simp [hs, hc] at h
    | true =>
      simp only [hs, hc, Bool.false_eq_true, if_false, if_true] at h
      rw [Prod.mk.injEq] at h
      obtain ⟨h1, h2⟩ := h
      injection h1 with h1
      exact ⟨h1.symm, h2.symm⟩

/-- A failed `Part0.myfs_mknod` (either `-EEXIST` or `-EPERM`) leaves the
state untouched. -/
lemma part0_mknod_error_state (st : FsState) (dir : Nat) (name : String) (mode : Nat)
    (e : Int) (st' : FsState)
    (h : Part0.myfs_mknod st dir name mode = (.error e, st')) : st' = st := by
  unfold Part0.myfs_mknod Part0.myfs_get_inode at h
  cases hs : (simple_lookup st dir name).isSome with
  | true =>
    simp only [hs, if_true] at h
    rw [Prod.mk.injEq] at h
    exact h.2.symm
  | false =>
    cases hc : st.can_alloc with
    | false =>
      simp only [hs, hc, Bool.false_eq_true, if_false] at h
      rw [Prod.mk.injEq] at h
      exact h.2.symm
    | true =>
      simp [hs, hc] at h

/-- **C3.** For a directory `dir` (present in the inode table) and a mode
without file-type bits (the VFS strips them before calling `mkdir`), in
both implementations (`myfs_mkdir` of src/myfs.c and of
src/unnamed/part_000): a successful `mkdir` creates a directory inode with
link count 2, inserts it into `dir` under `name`, and increments `dir`'s
own link count by exactly 1; a failed `mkdir` leaves `dir`'s inode — its
link count included — unchanged. -/
theorem mkdir_inserts_and_bumps_parent_nlink (st : FsState) (dir : Nat) (name : String)
    (mode : Nat) (d0 : Inode)
    (hF : Fresh st) (hd : findInode st dir = some d0) (hm : mode &&& S_IFMT = 0) :
    (∀ x st', Myfs.myfs_mkdir st dir name mode = (.ok x, st') →
       (∃ i, findInode st' x = some i ∧ i.i_mode &&& S_IFMT = S_IFDIR ∧ i.i_nlink = 2)
       ∧ simple_lookup st' dir name = some x
       ∧ (∃ d1, findInode st' dir = some d1 ∧ d1.i_nlink = d0.i_nlink + 1))
    ∧ (∀ e st', Myfs.myfs_mkdir st dir name mode = (.error e, st') →
       findInode st' dir = some d0)
    ∧ (∀ x st', Part0.myfs_mkdir st dir name mode = (.ok x, st') →
       (∃ i, findInode st' x = some i ∧ i.i_mode &&& S_IFMT = S_IFDIR ∧ i.i_nlink = 2)
       ∧ simple_lookup st' dir name = some x
       ∧ (∃ d1, findInode st' dir = some d1 ∧ d1.i_nlink = d0.i_nlink + 1))
    ∧ (∀ e st', Part0.myfs_mkdir st dir name mode = (.error e, st') →
       findInode st' dir = some d0) := by
  obtain ⟨hmem, hino⟩ := findInode_some_mem st dir d0 hd
  have hdir_lt : dir < st.next_ino := hino ▸ hF.1 d0 hmem
  have hneP : st.next_ino ≠ dir := Nat.ne_of_gt hdir_lt
  have hne : (st.next_ino == dir) = false := by simp [hneP]
  have htype : (mode ||| S_IFDIR) &&& S_IFMT = S_IFDIR :=
    lor_land_of_land_eq_zero mode S_IFDIR S_IFMT hm (by decide)
  refine ⟨?_, ?_, ?_, ?_⟩
  · intro x st' h
    cases hc : st.can_alloc with
    | false =>
      unfold Myfs.myfs_mkdir Myfs.myfs_mknod Myfs.myfs_get_inode at h
      simp [hc] at h
    | true =>
      have hmk : Myfs.myfs_mkdir st dir name mode =
          (.ok st.next_ino,
            inc_nlink (touch_dir (d_instantiate (allocState st (mode ||| S_IFDIR))
              dir name st.next_ino) dir) dir) := by
        unfold Myfs.myfs_mkdir Myfs.myfs_mknod Myfs.myfs_get_inode
        simp [hc, allocI]
      rw [hmk, Prod.mk.injEq] at h
      obtain ⟨h1, h2⟩ := h
      injection h1 with h1
      subst h1
      subst h2
      have hfx : findInode (inc_nlink (touch_dir (d_instantiate
          (allocState st (mode ||| S_IFDIR)) dir name st.next_ino) dir) dir) st.next_ino =
          some (allocI st (mode ||| S_IFDIR)) := by
        rw [findInode_inc_nlink, findInode_touch_dir, findInode_d_instantiate,
          findInode_allocState]
        simp [allocI, hneP, d_instantiate, allocState]
      have hfd : findInode (inc_nlink (touch_dir (d_instantiate
          (allocState st (mode ||| S_IFDIR)) dir name st.next_ino) dir) dir) dir =
          some { d0 with i_mtime := st.now, i_ctime := st.now,
                         i_nlink := d0.i_nlink + 1 } := by
        rw [findInode_inc_nlink, findInode_touch_dir, findInode_d_instantiate,
          findInode_allocState, hne]
        simp [hd, hino, d_instantiate, allocState]
      refine ⟨⟨allocI st (mode ||| S_IFDIR), hfx, ?_, ?_⟩, ?_, ⟨_, hfd, rfl⟩⟩
      · simpa [allocI] using htype
      · simp [allocI, htype]
      · exact simple_lookup_d_instantiate_self (allocState st (mode ||| S_IFDIR))
          dir name st.next_ino
  · intro e st' h
    cases hc : st.can_alloc with
    | false =>
      have hmk : Myfs.myfs_mkdir st dir name mode = (.error ENOSPC, st) := by
        unfold Myfs.myfs_mkdir Myfs.myfs_mknod Myfs.myfs_get_inode
        simp [hc]
      rw [hmk, Prod.mk.injEq] at h
      rw [← h.2]
      exact hd
    | true =>
      have hmk : Myfs.myfs_mkdir st dir name mode =
          (.ok st.next_ino,
            inc_nlink (touch_dir (d_instantiate (allocState st (mode ||| S_IFDIR))
              dir name st.next_ino) dir) dir) := by
        unfold Myfs.myfs_mkdir Myfs.myfs_mknod Myfs.myfs_get_inode
        simp [hc, allocI]
      rw [hmk] at h
      simp at h
  · intro x st' h
    unfold Part0.myfs_mkdir at h
    cases hres : Part0.myfs_mknod st dir name (mode ||| S_IFDIR) with
    | mk r s1 =>
      rw [hres] at h
      cases r with
      | error e => simp at h
      | ok n =>
        simp only [Prod.mk.injEq] at h
        obtain ⟨h1, h2⟩ := h
        injection h1 with h1
        subst h1
        subst h2
        obtain ⟨hxn, hs1⟩ := part0_mknod_ok_state st dir name (mode ||| S_IFDIR) n s1 hres
        subst hxn
        subst hs1
        have hfx : findInode (inc_nlink (d_instantiate
            (allocState st (mode ||| S_IFDIR)) dir name st.next_ino) dir) st.next_ino =
            some (allocI st (mode ||| S_IFDIR)) := by
          rw [findInode_inc_nlink, findInode_d_instantiate, findInode_allocState]
          simp [allocI, hneP]
        have hfd : findInode (inc_nlink (d_instantiate
            (allocState st (mode ||| S_IFDIR)) dir name st.next_ino) dir) dir =
            some { d0 with i_nlink := d0.i_nlink + 1 } := by
          rw [findInode_inc_nlink, findInode_d_instantiate, findInode_allocState, hne, hd]
          simp [hino]
        refine ⟨⟨allocI st (mode ||| S_IFDIR), hfx, ?_, ?_⟩, ?_, ⟨_, hfd, rfl⟩⟩
        · simpa [allocI] using htype
        · simp [allocI, htype]
        · exact simple_lookup_d_instantiate_self (allocState st (mode ||| S_IFDIR))
            dir name st.next_ino
  · intro e st' h
    unfold Part0.myfs_mkdir at h
    cases hres : Part0.myfs_mknod st dir name (mode ||| S_IFDIR) with
    | mk r s1 =>
      rw [hres] at h
      cases r with
      | ok n => simp at h
      | error e2 =>
        simp only [Prod.mk.injEq] at h
        obtain ⟨h1, h2⟩ := h
        subst h2
        rw [part0_mknod_error_state st dir name (mode ||| S_IFDIR) e2 s1 hres]
        exact hd

/-- Witness for C3 at concrete inputs, exercising both implementations:
`mkdir` of `"d"` in the root of `st0` yields inode 2 (a directory, link
count 2), makes it visible under `"d"`, and raises the root's link count
from 2 to 3 — in src/myfs.c's `myfs_mkdir` and in src/unnamed/part_000's
`myfs_mkdir` alike. -/
theorem mkdir_inserts_and_bumps_parent_nlink_witness :
    ((∃ i, findInode (Myfs.myfs_mkdir st0 1 "d" 0o755).2 2 = some i
        ∧ i.i_mode &&& S_IFMT = S_IFDIR ∧ i.i_nlink = 2)
    ∧ simple_lookup (Myfs.myfs_mkdir st0 1 "d" 0o755).2 1 "d" = some 2
    ∧ (∃ d1, findInode (Myfs.myfs_mkdir st0 1 "d" 0o755).2 1 = some d1
        ∧ d1.i_nlink = rootInode.i_nlink + 1))
    ∧ ((∃ i, findInode (Part0.myfs_mkdir st0 1 "d" 0o755).2 2 = some i
        ∧ i.i_mode &&& S_IFMT = S_IFDIR ∧ i.i_nlink = 2)
    ∧ simple_lookup (Part0.myfs_mkdir st0 1 "d" 0o755).2 1 "d" = some 2
    ∧ (∃ d1, findInode (Part0.myfs_mkdir st0 1 "d" 0o755).2 1 = some d1
        ∧ d1.i_nlink = rootInode.i_nlink + 1)) := by
  have h := mkdir_inserts_and_bumps_parent_nlink st0 1 "d" 0o755 rootInode
    (by decide) (by decide) (by decide)
  exact ⟨h.1 2 (Myfs.myfs_mkdir st0 1 "d" 0o755).2 rfl,
    h.2.2.1 2 (Part0.myfs_mkdir st0 1 "d" 0o755).2 rfl⟩

/-! ## Claim C4 -/

/-- **C4, counterexample.** The claim says every node-creating operation
fails with OutOfSpace (`-ENOSPC`) when no inode can be allocated.  In
src/unnamed/part_000, `myfs_mknod`'s pre-initialized error is `-EPERM`, so
allocation failure there surfaces as PermissionDenied, not OutOfSpace. -/
theorem part0_alloc_failure_eperm_not_enospc :
    (Part0.myfs_mknod st_noalloc 1 "a" 0o100644).1 = .error EPERM
    ∧ (Part0.myfs_mknod st_noalloc 1 "a" 0o100644).1 ≠ .error ENOSPC := by
  refine ⟨rfl, ?_⟩
  intro h
  rw [show (Part0.myfs_mknod st_noalloc 1 "a" 0o100644).1 = Except.error EPERM from rfl] at h
  injection h with h
  exact absurd h (by decide)

/-- **C4, amended.** When no inode can be allocated, every node-creating
operation of src/myfs.c (`mknod`, `create`, `mkdir`, `symlink`, `tmpfile`)
fails with `-ENOSPC` and no other error, for every input; the creating
operations of src/unnamed/part_000 (`mknod`, `create`, `mkdir`) instead
fail with `-EPERM` (when the name is not already present, in which case
`-EEXIST` takes precedence). -/
theorem alloc_failure_errors (st : FsState) (dir : Nat) (name sym : String) (mode : Nat)
    (hc : st.can_alloc = false) :
    (Myfs.myfs_mknod st dir name mode).1 = .error ENOSPC
    ∧ (Myfs.myfs_create st dir name mode).1 = .error ENOSPC
    ∧ (Myfs.myfs_mkdir st dir name mode).1 = .error ENOSPC
    ∧ (Myfs.myfs_symlink st dir name sym).1 = .error ENOSPC
    ∧ (Myfs.myfs_tmpfile st dir mode).1 = .error ENOSPC
    ∧ (simple_lookup st dir name = none →
        (Part0.myfs_mknod st dir name mode).1 = .error EPERM
        ∧ (Part0.myfs_create st dir name mode).1 = .error EPERM
        ∧ (Part0.myfs_mkdir st dir name mode).1 = .error EPERM) := by
  refine ⟨?_, ?_, ?_, ?_, ?_, ?_⟩
  · unfold Myfs.myfs_mknod Myfs.myfs_get_inode
    simp [hc]
  · unfold Myfs.myfs_create Myfs.myfs_mknod Myfs.myfs_get_inode
    simp [hc]
  · unfold Myfs.myfs_mkdir Myfs.myfs_mknod Myfs.myfs_get_inode
    simp [hc]
  · unfold Myfs.myfs_symlink Myfs.myfs_get_inode
    simp [hc]
  · unfold Myfs.myfs_tmpfile Myfs.myfs_get_inode
    simp [hc]
  · intro hl
    refine ⟨?_, ?_, ?_⟩ <;>
      simp [Part0.myfs_mkdir, Part0.myfs_create, Part0.myfs_mknod,
        Part0.myfs_get_inode, hl, hc]

/-- Witness for the amended C4 at concrete inputs: with allocation failing,
`tmpfile` of src/myfs.c reports `-ENOSPC` while `mkdir` of
src/unnamed/part_000 reports `-EPERM`. -/
theorem alloc_failure_errors_witness :
    (Myfs.myfs_tmpfile st_noalloc 1 0o100644).1 = .error ENOSPC
    ∧ (Part0.myfs_mkdir st_noalloc 1 "a" 0o755).1 = .error EPERM := by
  have h1 := alloc_failure_errors st_noalloc 1 "a" "t" 0o100644 rfl
  have h2 := alloc_failure_errors st_noalloc 1 "a" "t" 0o755 rfl
  exact ⟨h1.2.2.2.2.1, (h2.2.2.2.2.2 rfl).2.2⟩

/-! ## Claim C5 -/

/-- **C5, counterexample.** In src/unnamed/part_000 a successful `create`
(a mutating operation of the operation table) leaves the owning directory's
inode — its modify and change timestamps included — completely unchanged,
even though the current time (5 in state `st5`) differs from the stored
timestamps (0). -/
theorem part0_create_leaves_parent_times :
    (Part0.myfs_create st5 1 "f" 0o644).1 = .ok 2
    ∧ findInode (Part0.myfs_create st5 1 "f" 0o644).2 1 = some rootInode
    ∧ rootInode.i_mtime ≠ st5.now
    ∧ rootInode.i_ctime ≠ st5.now := by
  refine ⟨rfl, by decide, by decide, by decide⟩

/-- **C5, amended.** In src/myfs.c every successful mutating operation
implemented there (`mknod`, `create`, `mkdir`, `symlink`) sets the owning
directory's modify and change timestamps to the current time, and a
successful `tmpfile` leaves the dentry cache and every pre-existing inode
(hence every directory's timestamps) unchanged.  In src/unnamed/part_000,
`mknod` leaves the directory's inode entirely unchanged and `mkdir` changes
only its link count — neither updates any timestamp. -/
theorem mutating_ops_touch_parent_tmpfile_not (st : FsState) (dir : Nat)
    (name sym : String) (mode : Nat) (d0 : Inode)
    (hF : Fresh st) (hd : findInode st dir = some d0) :
    (∀ x st', Myfs.myfs_mknod st dir name mode = (.ok x, st') →
        ∃ d1, findInode st' dir = some d1 ∧ d1.i_mtime = st.now ∧ d1.i_ctime = st.now)
    ∧ (∀ x st', Myfs.myfs_create st dir name mode = (.ok x, st') →
        ∃ d1, findInode st' dir = some d1 ∧ d1.i_mtime = st.now ∧ d1.i_ctime = st.now)
    ∧ (∀ x st', Myfs.myfs_mkdir st dir name mode = (.ok x, st') →
        ∃ d1, findInode st' dir = some d1 ∧ d1.i_mtime = st.now ∧ d1.i_ctime = st.now)
    ∧ (∀ x st', Myfs.myfs_symlink st dir name sym = (.ok x, st') →
        ∃ d1, findInode st' dir = some d1 ∧ d1.i_mtime = st.now ∧ d1.i_ctime = st.now)
    ∧ (∀ x st', Myfs.myfs_tmpfile st dir mode = (.ok x, st') →
        st'.dentries = st.dentries
        ∧ ∀ j d, findInode st j = some d → findInode st' j = some d)
    ∧ (∀ x st', Part0.myfs_mknod st dir name mode = (.ok x, st') →
        findInode st' dir = some d0)
    ∧ (∀ x st', Part0.myfs_mkdir st dir name mode = (.ok x, st') →
        ∃ d1, findInode st' dir = some d1
          ∧ d1.i_mtime = d0.i_mtime ∧ d1.i_ctime = d0.i_ctime) := by
  obtain ⟨hmem, hino⟩ := findInode_some_mem st dir d0 hd
  have hdir_lt : dir < st.next_ino := hino ▸ hF.1 d0 hmem
  have hneP : st.next_ino ≠ dir := Nat.ne_of_gt hdir_lt
  have hne : (st.next_ino == dir) = false := by simp [hneP]
  have key : ∀ (m x : Nat) (st' : FsState),
      Myfs.myfs_mknod st dir name m = (.ok x, st') →
      findInode st' dir = some { d0 with i_mtime := st.now, i_ctime := st.now } := by
    intro m x st' h
    cases hc : st.can_alloc with
    | false =>
      unfold Myfs.myfs_mknod Myfs.myfs_get_inode at h
      simp [hc] at h
    | true =>
      have hmk : Myfs.myfs_mknod st dir name m =
          (.ok st.next_ino,
            touch_dir (d_instantiate (allocState st m) dir name st.next_ino) dir) := by
        unfold Myfs.myfs_mknod Myfs.myfs_get_inode
        simp [hc, allocI]
      rw [hmk, Prod.mk.injEq] at h
      obtain ⟨h1, h2⟩ := h
      subst h2
      rw [findInode_touch_dir, findInode_d_instantiate, findInode_allocState, hne]
      simp [hd, hino, d_instantiate, allocState]
  have keyP : ∀ (m x : Nat) (st' : FsState),
      Part0.myfs_mknod st dir name m = (.ok x, st') →
      st' = d_instantiate (allocState st m) dir name st.next_ino := by
    intro m x st' h
    unfold Part0.myfs_mknod Part0.myfs_get_inode at h
    cases hl : (simple_lookup st dir name).isSome with
    | true => simp [hl] at h
    | false =>
      cases hc : st.can_alloc with
      | false => simp [hl, hc] at h
      | true =>
        simp only [hl, hc, Bool.false_eq_true, if_false, if_true] at h
        rw [Prod.mk.injEq] at h
        exact h.2.symm
  refine ⟨?_, ?_, ?_, ?_, ?_, ?_, ?_⟩
  · intro x st' h
    exact ⟨_, key mode x st' h, rfl, rfl⟩
  · intro x st' h
    exact ⟨_, key (mode ||| S_IFREG) x st' h, rfl, rfl⟩
  · intro x st' h
    unfold Myfs.myfs_mkdir at h
    cases hres : Myfs.myfs_mknod st dir name (mode ||| S_IFDIR) with
    | mk r s1 =>
      rw [hres] at h
      cases r with
      | error e => simp at h
      | ok n =>
        simp only [Prod.mk.injEq] at h
        obtain ⟨h1, h2⟩ := h
        subst h2
        have hkey := key (mode ||| S_IFDIR) n s1 hres
        rw [findInode_inc_nlink, hkey]
        refine
          ⟨{ d0 with i_mtime := st.now, i_ctime := st.now, i_nlink := d0.i_nlink + 1 },
            ?_, rfl, rfl⟩
        simp [hino]
  · intro x st' h
    cases hc : st.can_alloc with
    | false =>
      unfold Myfs.myfs_symlink Myfs.myfs_get_inode at h
      simp [hc] at h
    | true =>
      cases hpe : st.page_err with
      | some e =>
        unfold Myfs.myfs_symlink Myfs.myfs_get_inode at h
        simp [hc, allocState, hpe] at h
      | none =>
        have hmk : Myfs.myfs_symlink st dir name sym =
            (.ok st.next_ino,
              touch_dir (d_instantiate (allocState st (S_IFLNK ||| S_IRWXUGO))
                dir name st.next_ino) dir) := by
          unfold Myfs.myfs_symlink Myfs.myfs_get_inode
          simp [hc, allocI, allocState, hpe]
        rw [hmk, Prod.mk.injEq] at h
        obtain ⟨h1, h2⟩ := h
        subst h2
        rw [findInode_touch_dir, findInode_d_instantiate, findInode_allocState, hne]
        simp [hd, hino, d_instantiate, allocState]
  · intro x st' h
    cases hc : st.can_alloc with
    | false =>
      unfold Myfs.myfs_tmpfile Myfs.myfs_get_inode at h
      simp [hc] at h
    | true =>
      have hmk : Myfs.myfs_tmpfile st dir mode =
          (.ok st.next_ino, drop_nlink (allocState st mode) st.next_ino) := by
        unfold Myfs.myfs_tmpfile Myfs.myfs_get_inode
        simp [hc, allocI, Myfs.d_tmpfile]
      rw [hmk, Prod.mk.injEq] at h
      obtain ⟨h1, h2⟩ := h
      subst h2
      refine ⟨rfl, ?_⟩
      intro j d hjd
      obtain ⟨hdmem, hdj⟩ := findInode_some_mem st j d hjd
      have hj_lt : j < st.next_ino := hdj ▸ hF.1 d hdmem
      have hjne : (st.next_ino == j) = false := by simp [Nat.ne_of_gt hj_lt]
      have hdneP : d.i_ino ≠ st.next_ino := by
        rw [hdj]
        exact Nat.ne_of_lt hj_lt
      rw [findInode_drop_nlink, findInode_allocState, hjne, hjd]
      simp [hdneP]
  · intro x st' h
    rw [keyP mode x st' h, findInode_d_instantiate, findInode_allocState, hne]
    exact hd
  · intro x st' h
    unfold Part0.myfs_mkdir at h
    cases hres : Part0.myfs_mknod st dir name (mode ||| S_IFDIR) with
    | mk r s1 =>
      rw [hres] at h
      cases r with
      | error e => simp at h
      | ok n =>
        simp only [Prod.mk.injEq] at h
        obtain ⟨h1, h2⟩ := h
        subst h2
        rw [keyP (mode ||| S_IFDIR) n s1 hres, findInode_inc_nlink,
          findInode_d_instantiate, findInode_allocState, hne, hd]
        refine ⟨{ d0 with i_nlink := d0.i_nlink + 1 }, ?_, rfl, rfl⟩
        simp [hino]

/-- Witness for the amended C5 at concrete inputs (clock at 5, stored
timestamps 0): a successful `mknod` stamps the root with time 5, and a
successful `tmpfile` leaves the dentry cache and the root inode as they
were. -/
theorem mutating_ops_touch_parent_tmpfile_not_witness :
    (∃ d1, findInode (Myfs.myfs_mknod st5 1 "f" 0o100644).2 1 = some d1
        ∧ d1.i_mtime = st5.now ∧ d1.i_ctime = st5.now)
    ∧ (Myfs.myfs_tmpfile st5 1 0o100644).2.dentries = st5.dentries := by
  have h := mutating_ops_touch_parent_tmpfile_not st5 1 "f" "t" 0o100644 rootInode
    (by decide) (by decide)
  exact ⟨h.1 2 (Myfs.myfs_mknod st5 1 "f" 0o100644).2 rfl,
    (h.2.2.2.2.1 2 (Myfs.myfs_tmpfile st5 1 0o100644).2 rfl).1⟩

/-! ## Claim C8 -/

/-- **C8.** For a regular-file mode (the VFS passes `S_IFREG | perm` to
`tmpfile`), a successful `myfs_tmpfile` returns a regular-file inode whose
link count is 0 (`d_tmpfile` decrements the count `new_inode` set), and it
is inserted into no directory: the dentry cache is unchanged and no lookup
in any directory, under any name, can return the new inode. -/
theorem tmpfile_anonymous (st : FsState) (dir : Nat) (mode : Nat) (x : Nat)
    (st' : FsState)
    (hF : Fresh st) (hm : mode &&& S_IFMT = S_IFREG)
    (h : Myfs.myfs_tmpfile st dir mode = (.ok x, st')) :
    (∃ i, findInode st' x = some i ∧ i.i_mode &&& S_IFMT = S_IFREG ∧ i.i_nlink = 0)
    ∧ st'.dentries = st.dentries
    ∧ ∀ d n, simple_lookup st' d n ≠ some x := by
  cases hc : st.can_alloc with
  | false =>
    unfold Myfs.myfs_tmpfile Myfs.myfs_get_inode at h
    simp [hc] at h
  | true =>
    have hmk : Myfs.myfs_tmpfile st dir mode =
        (.ok st.next_ino, drop_nlink (allocState st mode) st.next_ino) := by
      unfold Myfs.myfs_tmpfile Myfs.myfs_get_inode
      simp [hc, allocI, Myfs.d_tmpfile]
    rw [hmk, Prod.mk.injEq] at h
    obtain ⟨h1, h2⟩ := h
    injection h1 with h1
    subst h1
    subst h2
    have hnd : (mode &&& S_IFMT == S_IFDIR) = false := by
      rw [hm]
      decide
    have hfi : findInode (drop_nlink (allocState st mode) st.next_ino) st.next_ino =
        some { i_ino := st.next_ino, i_mode := mode, i_nlink := 0,
               i_atime := st.now, i_mtime := st.now, i_ctime := st.now } := by
      rw [findInode_drop_nlink, findInode_allocState]
      simp [allocI, hnd]
    refine ⟨⟨_, hfi, hm, rfl⟩, rfl, ?_⟩
    intro d n hcon
    have hcon' : (st.dentries.find? (fun e => e.d_parent == d && e.d_name == n)).map
        (fun e => e.d_ino) = some st.next_ino := hcon
    rw [Option.map_eq_some'] at hcon'
    obtain ⟨e, hfind, hei⟩ := hcon'
    have hlt := hF.2 e (List.mem_of_find?_eq_some hfind)
    rw [hei] at hlt
    exact absurd hlt (lt_irrefl _)

/-- Witness for C8 at a concrete input: `tmpfile` on `st0` creates inode 2
but the dentry cache stays empty and a root lookup cannot return it. -/
theorem tmpfile_anonymous_witness :
    (Myfs.myfs_tmpfile st0 1 0o100644).2.dentries = st0.dentries
    ∧ simple_lookup (Myfs.myfs_tmpfile st0 1 0o100644).2 1 "a" ≠ some 2 := by
  have h := tmpfile_anonymous st0 1 0o100644 2 (Myfs.myfs_tmpfile st0 1 0o100644).2
    (by decide) (by decide) rfl
  exact ⟨h.2.1, h.2.2 1 "a"⟩
